import Mathlib

/-!
Verification of the dual-source audio capture-and-buffering core of the
oscilloscope repository (src/src/main.rs), against its natural-language
specification.

Samples are `f32` amplitudes in the source; the claims under verification
concern which samples flow into which buffer and which pairs are subtracted,
never rounding behaviour, so amplitudes are modelled as exact rationals.

Components not present in src/src/main.rs (the residual window, the
source-swap operation) are modelled from the spec; each such definition
carries a doc comment beginning `Modelled from the spec:`.
-/

namespace Oscilloscope

/-- An audio sample (`f32` in the source, modelled as an exact rational). -/
abbrev Sample := ℚ

/-- The window capacity: the literal `1000` in `MyApp::update`
(`if self.sys_samples.len() >= 1000 { ... }`). -/
def WINDOW_CAP : Nat := 1000

/-- One sliding-window push, exactly as done inline in `MyApp::update`:
`if w.len() >= cap { w.pop_front(); } w.push_back(sample);`.
The list holds the window contents oldest first (front of the `VecDeque`
at the head of the list). -/
def winPush (cap : Nat) (w : List Sample) (s : Sample) : List Sample :=
  (if cap ≤ w.length then w.tail else w) ++ [s]

/-- Pushing a batch of samples one by one (the per-sample pushes performed
by a drain loop, in arrival order). -/
def pushMany (cap : Nat) (w : List Sample) (xs : List Sample) : List Sample :=
  xs.foldl (winPush cap) w

/-- Result of `std::sync::mpsc::Receiver::try_recv` when no sample is
returned: `Empty` (queue empty, a sender still exists) or `Disconnected`
(queue empty and every sender dropped). -/
inductive RecvError
  | empty
  | disconnected
deriving DecidableEq

/-- The error value of `std::sync::mpsc::Sender::send` when the receiver
endpoint has been dropped. -/
inductive SendFailure
  | receiverGone
deriving DecidableEq

/-- A `std::sync::mpsc::channel::<f32>()` pair, viewed as its queue of
in-flight samples plus the liveness of each endpoint. -/
structure Chan where
  queue : List Sample
  senderAlive : Bool
  receiverAlive : Bool
deriving DecidableEq

/-- A channel as returned by `channel::<f32>()`: empty, both endpoints live. -/
def freshChan : Chan :=
  { queue := [], senderAlive := true, receiverAlive := true }

/-- `Sender::send(sample)`: enqueues at the back and returns `Ok(())` if the
receiver endpoint is alive, otherwise returns `Err(SendError)` without
enqueueing. It never blocks (the queue is unbounded). -/
def Chan.send (c : Chan) (s : Sample) : Chan × Except SendFailure Unit :=
  if c.receiverAlive then
    ({ c with queue := c.queue ++ [s] }, Except.ok ())
  else
    (c, Except.error SendFailure.receiverGone)

/-- What the hardware callback does per sample: `let _ = tx.send(sample);` —
the `Result` is discarded, so no failure is observable to the callback. -/
def callbackSend (c : Chan) (s : Sample) : Chan :=
  (c.send s).1

/-- The callback body `for &sample in data { let _ = tx.send(sample); }`
applied to one hardware-delivered buffer. -/
def callbackBuffer (c : Chan) (data : List Sample) : Chan :=
  data.foldl callbackSend c

/-- `Receiver::try_recv()`: the next queued sample if any is available,
otherwise `Err(Empty)` while a sender is alive and `Err(Disconnected)` once
all senders are gone. It never blocks. -/
def Chan.tryRecv (c : Chan) : Except RecvError (Sample × Chan) :=
  match c.queue with
  | [] =>
      Except.error (if c.senderAlive then RecvError.empty else RecvError.disconnected)
  | s :: rest => Except.ok (s, { c with queue := rest })

/-- The drain loop of `MyApp::update`:
`while let Ok(sample) = rx.try_recv() { ...pop_front if full...; push_back }`.
Returns the channel as left by the loop, the window, and the `try_recv`
error that ended the loop. -/
def drainLoop (cap : Nat) (c : Chan) (w : List Sample) :
    Chan × List Sample × RecvError :=
  match h : c.tryRecv with
  | Except.ok (s, c2) => drainLoop cap c2 (winPush cap w s)
  | Except.error e => (c, w, e)
termination_by c.queue.length
decreasing_by
  unfold Chan.tryRecv at h
  rcases hq : c.queue with _ | ⟨x, rest⟩
  · rw [hq] at h; exact absurd h (by simp)
  · rw [hq] at h
    simp only [Except.ok.injEq, Prod.mk.injEq] at h
    obtain ⟨h1, h2⟩ := h
    rw [← h2]
    simp

/-- Receiving in a bare loop (no window): the sequence of samples obtained
by repeated `try_recv()` until it errors, plus that final error. -/
def drainSeq (c : Chan) : List Sample × RecvError :=
  match h : c.tryRecv with
  | Except.ok (s, c2) =>
      let r := drainSeq c2
      (s :: r.1, r.2)
  | Except.error e => ([], e)
termination_by c.queue.length
decreasing_by
  unfold Chan.tryRecv at h
  rcases hq : c.queue with _ | ⟨x, rest⟩
  · rw [hq] at h; exact absurd h (by simp)
  · rw [hq] at h
    simp only [Except.ok.injEq, Prod.mk.injEq] at h
    obtain ⟨h1, h2⟩ := h
    rw [← h2]
    simp

/-- The consumer state of `MyApp` that the drain cycle touches: the two
receivers and the two sample windows. The senders `sys_tx` and `mic_tx`
stored in `MyApp` for its whole lifetime are reflected in the channels'
`senderAlive` flags. -/
structure MyApp where
  sys_rx : Chan
  mic_rx : Chan
  sys_samples : List Sample
  mic_samples : List Sample
deriving DecidableEq

/-- The buffer-updating portion of `MyApp::update` (the egui rendering reads
the windows but never mutates them): drain the system-output channel into
`sys_samples`, then drain the microphone channel into `mic_samples`. -/
def MyApp.update (a : MyApp) : MyApp :=
  let sys := drainLoop WINDOW_CAP a.sys_rx a.sys_samples
  let mic := drainLoop WINDOW_CAP a.mic_rx a.mic_samples
  { sys_rx := sys.1, mic_rx := mic.1,
    sys_samples := sys.2.1, mic_samples := mic.2.1 }

/-- Modelled from the spec: residual computation (section 4.4), which is
absent from src/src/main.rs. For a drained microphone sample `m`: if the
system-output window is non-empty, the residual is `m - head`, where `head`
is the oldest sample currently resident in that window; if it is empty, the
residual is `m` unchanged. -/
def residualOf (sysW : List Sample) (m : Sample) : Sample :=
  match sysW.head? with
  | none => m
  | some h => m - h

/-- Modelled from the spec: step 2 of the Drain/Tick Cycle (section 4.5)
with residual computation, absent from src/src/main.rs. For each microphone
sample drained, push it into the microphone window, then push its residual
(section 4.4, against the system-output window `sysW`) into the residual
window. -/
def micDrainLoop (cap : Nat) (c : Chan) (sysW micW resW : List Sample) :
    Chan × List Sample × List Sample × RecvError :=
  match h : c.tryRecv with
  | Except.ok (m, c2) =>
      micDrainLoop cap c2 sysW (winPush cap micW m)
        (winPush cap resW (residualOf sysW m))
  | Except.error e => (c, micW, resW, e)
termination_by c.queue.length
decreasing_by
  unfold Chan.tryRecv at h
  rcases hq : c.queue with _ | ⟨x, rest⟩
  · rw [hq] at h; exact absurd h (by simp)
  · rw [hq] at h
    simp only [Except.ok.injEq, Prod.mk.injEq] at h
    obtain ⟨h1, h2⟩ := h
    rw [← h2]
    simp

/-- Modelled from the spec: the core state with the third (residual) window
(section 3); the residual window is absent from src/src/main.rs. -/
structure CoreApp where
  sys_rx : Chan
  mic_rx : Chan
  sysW : List Sample
  micW : List Sample
  resW : List Sample
deriving DecidableEq

/-- Modelled from the spec: `tick()` (section 4.5). Step 1 drains the
system-output channel into the system-output window; step 2 then drains the
microphone channel, pushing each sample into the microphone window and its
residual into the residual window. The step-1 and step-2 loops are those of
`MyApp::update`; only the residual pushes are additional. -/
def tick (cap : Nat) (a : CoreApp) : CoreApp :=
  let sys := drainLoop cap a.sys_rx a.sysW
  let mic := micDrainLoop cap a.mic_rx sys.2.1 a.micW a.resW
  { sys_rx := sys.1, mic_rx := mic.1,
    sysW := sys.2.1, micW := mic.2.1, resW := mic.2.2.1 }

/-- The two audio sources (`enum AudioSource` in the source). -/
inductive AudioSource
  | Microphone
  | SystemOutput
deriving DecidableEq

/-- The responses the cpal host gives to the calls `build_audio_stream`
makes: whether a default input/output device exists
(`default_input_device()` / `default_output_device()` returning `Some`),
whether that device's default stream config can be negotiated
(`default_input_config()` / `default_output_config()` returning `Ok`), and
whether `build_input_stream` on it succeeds. -/
structure Host where
  defaultInputDevice : Bool
  defaultOutputDevice : Bool
  defaultInputConfigOk : Bool
  defaultOutputConfigOk : Bool
  buildInputStreamOk : Bool
  buildOutputCaptureOk : Bool
deriving DecidableEq

/-- Which failing call produced the `Err` that `?` propagated. -/
inductive BuildFailStep
  | configNegotiation
  | streamConstruction
deriving DecidableEq

/-- How one call of `build_audio_stream` ends: `ok` (an `AudioStream` is
returned to the caller), `err` (an error value is returned to the caller,
propagated by `?`), or `panicked` (the process aborts inside
`.expect(msg)`). -/
inductive BuildOutcome
  | ok (source : AudioSource)
  | err (step : BuildFailStep)
  | panicked (msg : String)
deriving DecidableEq

/-- `build_audio_stream`: for `Microphone`,
`host.default_input_device().expect("No input device available")` aborts the
process when no default input device exists; then
`device.default_input_config()?` and `device.build_input_stream(..)?` each
return an error to the caller on failure. For `SystemOutput` the same shape
runs against the default output device (loopback capture: an input-style
stream built on the output device). -/
def build_audio_stream (host : Host) (source : AudioSource) : BuildOutcome :=
  match source with
  | AudioSource.Microphone =>
      if !host.defaultInputDevice then
        BuildOutcome.panicked "No input device available"
      else if !host.defaultInputConfigOk then
        BuildOutcome.err BuildFailStep.configNegotiation
      else if !host.buildInputStreamOk then
        BuildOutcome.err BuildFailStep.streamConstruction
      else
        BuildOutcome.ok AudioSource.Microphone
  | AudioSource.SystemOutput =>
      if !host.defaultOutputDevice then
        BuildOutcome.panicked "No output device available"
      else if !host.defaultOutputConfigOk then
        BuildOutcome.err BuildFailStep.configNegotiation
      else if !host.buildOutputCaptureOk then
        BuildOutcome.err BuildFailStep.streamConstruction
      else
        BuildOutcome.ok AudioSource.SystemOutput

/-- Whether a `build_audio_stream` call aborted the process. -/
def BuildOutcome.isPanic : BuildOutcome → Bool
  | BuildOutcome.panicked _ => true
  | _ => false

/-- The other source identity. -/
def AudioSource.other : AudioSource → AudioSource
  | AudioSource.Microphone => AudioSource.SystemOutput
  | AudioSource.SystemOutput => AudioSource.Microphone

/-- Modelled from the spec: an Audio Source Binding (section 3) — the source
identity it was opened with, the channel its capture callback feeds, and
whether it is playing. -/
structure Binding where
  source : AudioSource
  chan : Chan
  playing : Bool
deriving DecidableEq

/-- Modelled from the spec: the single-switchable-binding core of
sections 4.2 and 6 — the currently bound source, the channel released by the
last successful swap (its receiver endpoint dropped), and the display
window fed from the bound channel. -/
structure SwitchCore where
  bound : Binding
  released : Option Chan
  window : List Sample
deriving DecidableEq

/-- Modelled from the spec: `current_source()` (section 6). -/
def SwitchCore.current_source (st : SwitchCore) : AudioSource :=
  st.bound.source

/-- Modelled from the spec: `switch_source()` / `swap` (sections 4.2, 6):
open a binding for the other identity on a fresh channel and start it; only
on success does it replace the old binding, whose hardware stream and
channel receiver are then released; on failure the old binding is left
untouched and still playing. -/
def switch_source (host : Host) (st : SwitchCore) : SwitchCore × Bool :=
  match build_audio_stream host st.bound.source.other with
  | BuildOutcome.ok s =>
      ({ bound := { source := s, chan := freshChan, playing := true },
         released := some { st.bound.chan with receiverAlive := false },
         window := st.window }, true)
  | _ => (st, false)

/-- Modelled from the spec: the events that can race after a swap
(section 5, test scenario 7): a stale hardware callback sends on the
released channel, the new binding's callback sends on the bound channel, or
the consumer ticks, draining the bound channel into the window. -/
inductive Ev
  | sendOld (s : Sample)
  | sendNew (s : Sample)
  | tickEv
deriving DecidableEq

/-- One event step on the switch-core state. -/
def stepEv (cap : Nat) (st : SwitchCore) : Ev → SwitchCore
  | Ev.sendOld s =>
      { st with released := st.released.map (fun c => callbackSend c s) }
  | Ev.sendNew s =>
      { st with bound := { st.bound with chan := callbackSend st.bound.chan s } }
  | Ev.tickEv =>
      let d := drainLoop cap st.bound.chan st.window
      { st with bound := { st.bound with chan := d.1 }, window := d.2.1 }

/-- Running a sequence of post-swap events. -/
def runEv (cap : Nat) (st : SwitchCore) (evs : List Ev) : SwitchCore :=
  evs.foldl (stepEv cap) st

/-- The samples a list of events sends on the currently bound channel. -/
def sentNew (evs : List Ev) : List Sample :=
  evs.filterMap (fun e =>
    match e with
    | Ev.sendNew s => some s
    | _ => none)

/-- A host with no default input device (everything else healthy). -/
def hostNoInput : Host :=
  { defaultInputDevice := false, defaultOutputDevice := true,
    defaultInputConfigOk := true, defaultOutputConfigOk := true,
    buildInputStreamOk := true, buildOutputCaptureOk := true }

/-- A host with no default output device (everything else healthy). -/
def hostNoOutput : Host :=
  { defaultInputDevice := true, defaultOutputDevice := false,
    defaultInputConfigOk := true, defaultOutputConfigOk := true,
    buildInputStreamOk := true, buildOutputCaptureOk := true }

/-- A host whose input device exists but rejects config negotiation. -/
def hostBadConfig : Host :=
  { defaultInputDevice := true, defaultOutputDevice := true,
    defaultInputConfigOk := false, defaultOutputConfigOk := true,
    buildInputStreamOk := true, buildOutputCaptureOk := true }

/-- A fully healthy host. -/
def hostOk : Host :=
  { defaultInputDevice := true, defaultOutputDevice := true,
    defaultInputConfigOk := true, defaultOutputConfigOk := true,
    buildInputStreamOk := true, buildOutputCaptureOk := true }

/-- A concrete core state with non-trivial windows and empty channels. -/
def appIdle : CoreApp :=
  { sys_rx := freshChan, mic_rx := freshChan,
    sysW := [1], micW := [2], resW := [3] }

/-- A concrete consumer state with queued samples on both channels. -/
def appBusy : MyApp :=
  { sys_rx := { queue := [1, 2], senderAlive := true, receiverAlive := true },
    mic_rx := { queue := [3], senderAlive := true, receiverAlive := true },
    sys_samples := [], mic_samples := [4] }

/-- A consumer state agreeing with `appBusy` on the microphone parts but
differing on the system-output parts. -/
def appBusySysVariant : MyApp :=
  { sys_rx := freshChan,
    mic_rx := { queue := [3], senderAlive := true, receiverAlive := true },
    sys_samples := [9], mic_samples := [4] }

/-- A concrete switch-core state: microphone bound and playing. -/
def coreMicPlaying : SwitchCore :=
  { bound := { source := AudioSource.Microphone, chan := freshChan,
               playing := true },
    released := none, window := [] }

theorem drainLoop_nil (cap : Nat) (sa ra : Bool) (w : List Sample) :
    drainLoop cap ⟨[], sa, ra⟩ w =
      (⟨[], sa, ra⟩, w, if sa then RecvError.empty else RecvError.disconnected) := by
  rw [drainLoop.eq_def]
  simp [Chan.tryRecv]

theorem drainLoop_cons (cap : Nat) (s : Sample) (q : List Sample) (sa ra : Bool)
    (w : List Sample) :
    drainLoop cap ⟨s :: q, sa, ra⟩ w = drainLoop cap ⟨q, sa, ra⟩ (winPush cap w s) := by
  rw [drainLoop.eq_def]
  simp [Chan.tryRecv]

theorem drainLoop_spec (cap : Nat) (c : Chan) (w : List Sample) :
    drainLoop cap c w =
      ({ c with queue := [] }, pushMany cap w c.queue,
        if c.senderAlive then RecvError.empty else RecvError.disconnected) := by
  obtain ⟨q, sa, ra⟩ := c
  induction q generalizing w with
  | nil => simp [drainLoop_nil, pushMany]
  | cons s rest ih => rw [drainLoop_cons, ih]; simp [pushMany]

theorem drainSeq_nil (sa ra : Bool) :
    drainSeq ⟨[], sa, ra⟩ =
      ([], if sa then RecvError.empty else RecvError.disconnected) := by
  rw [drainSeq.eq_def]
  simp [Chan.tryRecv]

theorem drainSeq_cons (s : Sample) (q : List Sample) (sa ra : Bool) :
    drainSeq ⟨s :: q, sa, ra⟩ =
      (s :: (drainSeq ⟨q, sa, ra⟩).1, (drainSeq ⟨q, sa, ra⟩).2) := by
  rw [drainSeq.eq_def]
  simp [Chan.tryRecv]

theorem drainSeq_spec (c : Chan) :
    drainSeq c =
      (c.queue, if c.senderAlive then RecvError.empty else RecvError.disconnected) := by
  obtain ⟨q, sa, ra⟩ := c
  induction q with
  | nil => simp [drainSeq_nil]
  | cons s rest ih => rw [drainSeq_cons, ih]

theorem callbackSend_eq (c : Chan) (s : Sample) :
    callbackSend c s =
      if c.receiverAlive then { c with queue := c.queue ++ [s] } else c := by
  unfold callbackSend Chan.send
  split <;> simp

theorem callbackBuffer_eq (c : Chan) (data : List Sample) :
    callbackBuffer c data =
      if c.receiverAlive then { c with queue := c.queue ++ data } else c := by
  induction data generalizing c with
  | nil => simp [callbackBuffer]
  | cons x xs ih =>
      have hstep : callbackBuffer c (x :: xs) = callbackBuffer (callbackSend c x) xs := by
        simp [callbackBuffer]
      rw [hstep, callbackSend_eq]
      by_cases hr : c.receiverAlive = true
      · simp only [hr, if_pos]
        rw [ih]
        simp [hr]
      · simp only [Bool.not_eq_true] at hr
        simp [hr, ih, hr]

theorem micDrainLoop_nil (cap : Nat) (sa ra : Bool) (sysW micW resW : List Sample) :
    micDrainLoop cap ⟨[], sa, ra⟩ sysW micW resW =
      (⟨[], sa, ra⟩, micW, resW,
        if sa then RecvError.empty else RecvError.disconnected) := by
  rw [micDrainLoop.eq_def]
  simp [Chan.tryRecv]

theorem micDrainLoop_cons (cap : Nat) (m : Sample) (q : List Sample) (sa ra : Bool)
    (sysW micW resW : List Sample) :
    micDrainLoop cap ⟨m :: q, sa, ra⟩ sysW micW resW =
      micDrainLoop cap ⟨q, sa, ra⟩ sysW (winPush cap micW m)
        (winPush cap resW (residualOf sysW m)) := by
  rw [micDrainLoop.eq_def]
  simp [Chan.tryRecv]

theorem micDrainLoop_spec (cap : Nat) (c : Chan) (sysW micW resW : List Sample) :
    micDrainLoop cap c sysW micW resW =
      ({ c with queue := [] }, pushMany cap micW c.queue,
        pushMany cap resW (c.queue.map (residualOf sysW)),
        if c.senderAlive then RecvError.empty else RecvError.disconnected) := by
  obtain ⟨q, sa, ra⟩ := c
  induction q generalizing micW resW with
  | nil => simp [micDrainLoop_nil, pushMany]
  | cons m rest ih => rw [micDrainLoop_cons, ih]; simp [pushMany]

theorem mem_winPush {x : Sample} (cap : Nat) (w : List Sample) (s : Sample)
    (hx : x ∈ winPush cap w s) : x ∈ w ∨ x = s := by
  unfold winPush at hx
  rcases List.mem_append.mp hx with h | h
  · split at h
    · exact Or.inl (List.mem_of_mem_tail h)
    · exact Or.inl h
  · simp at h
    exact Or.inr h

theorem mem_pushMany {x : Sample} (cap : Nat) (w q : List Sample)
    (hx : x ∈ pushMany cap w q) : x ∈ w ∨ x ∈ q := by
  induction q generalizing w with
  | nil => exact Or.inl hx
  | cons s rest ih =>
      have hx2 : x ∈ pushMany cap (winPush cap w s) rest := hx
      rcases ih (winPush cap w s) hx2 with h | h
      · rcases mem_winPush cap w s h with h2 | h2
        · exact Or.inl h2
        · exact Or.inr (by simp [h2])
      · exact Or.inr (List.mem_cons_of_mem _ h)

theorem winPush_drop (cap : Nat) (hcap : 1 ≤ cap) (w : List Sample)
    (hw : w.length ≤ cap) (x : Sample) :
    winPush cap w x = (w ++ [x]).drop (w.length + 1 - cap) ∧
      (winPush cap w x).length ≤ cap := by
  unfold winPush
  by_cases hlt : cap ≤ w.length
  · have heq : w.length = cap := Nat.le_antisymm hw hlt
    cases w with
    | nil => rw [List.length_nil] at heq; omega
    | cons y t =>
        rw [List.length_cons] at heq
        rw [if_pos hlt]
        constructor
        · have h1 : (y :: t).length + 1 - cap = 1 := by
            rw [List.length_cons]; omega
          rw [h1]
          rfl
        · simp only [List.tail_cons, List.length_append, List.length_cons,
            List.length_nil]
          omega
  · rw [if_neg hlt]
    constructor
    · have h0 : w.length + 1 - cap = 0 := by omega
      rw [h0, List.drop_zero]
    · rw [List.length_append, List.length_cons, List.length_nil]
      omega

theorem pushMany_drop (cap : Nat) (hcap : 1 ≤ cap) (w xs : List Sample)
    (hw : w.length ≤ cap) :
    pushMany cap w xs = (w ++ xs).drop (w.length + xs.length - cap) := by
  induction xs generalizing w with
  | nil =>
      have h0 : w.length + List.length ([] : List Sample) - cap = 0 := by
        rw [List.length_nil]; omega
      rw [h0, List.drop_zero, List.append_nil]
      rfl
  | cons x rest ih =>
      have hstep : pushMany cap w (x :: rest) = pushMany cap (winPush cap w x) rest := by
        simp [pushMany]
      obtain ⟨heq, hlen⟩ := winPush_drop cap hcap w hw x
      rw [hstep, ih (winPush cap w x) hlen, heq]
      by_cases hlt : cap ≤ w.length
      · have hwc : w.length = cap := Nat.le_antisymm hw hlt
        cases w with
        | nil => rw [List.length_nil] at hwc; omega
        | cons y t =>
            rw [List.length_cons] at hwc
            have h1 : (y :: t).length + 1 - cap = 1 := by
              rw [List.length_cons]; omega
            rw [h1]
            have h3 : List.drop 1 ((y :: t) ++ [x]) = t ++ [x] := rfl
            rw [h3]
            have hL : (t ++ [x]).length + rest.length - cap = rest.length := by
              rw [List.length_append, List.length_cons, List.length_nil]
              omega
            have hR : (y :: t).length + (x :: rest).length - cap = rest.length + 1 := by
              rw [List.length_cons, List.length_cons]; omega
            rw [hL, hR]
            have h4 : (y :: t) ++ x :: rest = y :: (t ++ x :: rest) := rfl
            rw [h4, List.drop_succ_cons]
            have h5 : (t ++ [x]) ++ rest = t ++ x :: rest := by
              rw [List.append_assoc]; rfl
            rw [h5]
      · have h0 : w.length + 1 - cap = 0 := by omega
        rw [h0, List.drop_zero]
        have hL : (w ++ [x]).length + rest.length - cap =
            w.length + (x :: rest).length - cap := by
          rw [List.length_append, List.length_cons, List.length_cons,
            List.length_nil]
          omega
        rw [hL]
        have h5 : (w ++ [x]) ++ rest = w ++ x :: rest := by
          rw [List.append_assoc]; rfl
        rw [h5]

theorem sentNew_cons_sendOld (s : Sample) (rest : List Ev) :
    sentNew (Ev.sendOld s :: rest) = sentNew rest := rfl

theorem sentNew_cons_sendNew (s : Sample) (rest : List Ev) :
    sentNew (Ev.sendNew s :: rest) = s :: sentNew rest := rfl

theorem sentNew_cons_tick (rest : List Ev) :
    sentNew (Ev.tickEv :: rest) = sentNew rest := rfl

theorem stepEv_tick_window (cap : Nat) (st : SwitchCore) :
    (stepEv cap st Ev.tickEv).window = pushMany cap st.window st.bound.chan.queue := by
  simp [stepEv, drainLoop_spec]

theorem stepEv_tick_queue (cap : Nat) (st : SwitchCore) :
    (stepEv cap st Ev.tickEv).bound.chan.queue = [] := by
  simp [stepEv, drainLoop_spec]

theorem runEv_window_mem (cap : Nat) (evs : List Ev) (st : SwitchCore) (x : Sample)
    (hx : x ∈ (runEv cap st evs).window) :
    x ∈ st.window ∨ x ∈ st.bound.chan.queue ∨ x ∈ sentNew evs := by
  induction evs generalizing st with
  | nil => exact Or.inl hx
  | cons e rest ih =>
      have hx2 : x ∈ (runEv cap (stepEv cap st e) rest).window := hx
      have hrec := ih (stepEv cap st e) hx2
      cases e with
      | sendOld s =>
          rw [sentNew_cons_sendOld]
          exact hrec
      | sendNew s =>
          rw [sentNew_cons_sendNew]
          have hrec2 : x ∈ st.window ∨
              x ∈ (callbackSend st.bound.chan s).queue ∨ x ∈ sentNew rest := hrec
          rcases hrec2 with h | h | h
          · exact Or.inl h
          · rw [callbackSend_eq] at h
            by_cases hr : st.bound.chan.receiverAlive = true
            · rw [if_pos hr] at h
              have h2 : x ∈ st.bound.chan.queue ++ [s] := h
              rcases List.mem_append.mp h2 with h3 | h3
              · exact Or.inr (Or.inl h3)
              · have hxs : x = s := by simpa using h3
                exact Or.inr (Or.inr (by simp [hxs]))
            · rw [if_neg hr] at h
              exact Or.inr (Or.inl h)
          · exact Or.inr (Or.inr (List.mem_cons_of_mem _ h))
      | tickEv =>
          rw [sentNew_cons_tick]
          rw [stepEv_tick_window, stepEv_tick_queue] at hrec
          rcases hrec with h | h | h
          · rcases mem_pushMany cap _ _ h with h2 | h2
            · exact Or.inl h2
            · exact Or.inr (Or.inl h2)
          · exact absurd h (by simp)
          · exact Or.inr (Or.inr h)

theorem build_ok_source (host : Host) (src s : AudioSource)
    (h : build_audio_stream host src = BuildOutcome.ok s) : s = src := by
  cases src <;> unfold build_audio_stream at h <;>
    split_ifs at h <;> simp_all

/-- Claim C1: for every microphone sample drained during a tick, exactly one
residual value is appended to the residual window: the sample itself when
the system-output window is empty at that instant, and the sample minus the
oldest sample currently resident in the system-output window otherwise
(that window being the one left by step 1, unchanged throughout step 2). -/
theorem residual_per_mic_sample (cap : Nat) (a : CoreApp) :
    (tick cap a).resW =
      pushMany cap a.resW (a.mic_rx.queue.map (fun m =>
        match (pushMany cap a.sysW a.sys_rx.queue).head? with
        | none => m
        | some h => m - h)) := by
  simp only [tick, drainLoop_spec, micDrainLoop_spec]
  rfl

/-- Claim C4: within a single tick, the system-output channel is drained to
empty (step 1) strictly before any microphone sample is drained (step 2):
the tick's final system-output window is the start window with every
system-output sample queued at the start of the tick pushed in, and every
residual of the tick is computed against that fully drained window. -/
theorem sys_drained_before_mic (cap : Nat) (a : CoreApp) :
    (tick cap a).sysW = pushMany cap a.sysW a.sys_rx.queue ∧
    (tick cap a).micW = pushMany cap a.micW a.mic_rx.queue ∧
    (tick cap a).resW =
      pushMany cap a.resW (a.mic_rx.queue.map (residualOf ((tick cap a).sysW))) := by
  refine ⟨?_, ?_, ?_⟩ <;> simp [tick, drainLoop_spec, micDrainLoop_spec]

/-- Claim C8: a `tick()` call with both channels empty is a no-op on the
buffered data: the system-output, microphone, and residual windows all keep
their length and contents. -/
theorem tick_noop (cap : Nat) (a : CoreApp)
    (hs : a.sys_rx.queue = []) (hm : a.mic_rx.queue = []) :
    (tick cap a).sysW = a.sysW ∧ (tick cap a).micW = a.micW ∧
      (tick cap a).resW = a.resW := by
  refine ⟨?_, ?_, ?_⟩ <;>
    simp [tick, drainLoop_spec, micDrainLoop_spec, hs, hm, pushMany]

/-- Witness for `tick_noop` at a concrete state with empty channels. -/
theorem tick_noop_witness :
    appIdle.sys_rx.queue = [] ∧ appIdle.mic_rx.queue = [] ∧
      ((tick 1000 appIdle).sysW = appIdle.sysW ∧
        (tick 1000 appIdle).micW = appIdle.micW ∧
        (tick 1000 appIdle).resW = appIdle.resW) :=
  ⟨rfl, rfl, tick_noop 1000 appIdle rfl rfl⟩

/-- Claim C2: for every sliding window of capacity `cap ≥ 1`, pushing a
sequence `xs` into an empty window yields length `min xs.length cap` and
contents equal to the most recent `cap` pushed values in arrival order; in
particular pushing `cap + 1` samples leaves exactly samples 2..cap+1, the
first pushed sample evicted. -/
theorem sliding_window_push_law (cap : Nat) (hcap : 1 ≤ cap)
    (xs : List Sample) (x : Sample) (ys : List Sample) (hys : ys.length = cap) :
    (pushMany cap [] xs).length = min xs.length cap ∧
    pushMany cap [] xs = xs.drop (xs.length - cap) ∧
    pushMany cap [] (x :: ys) = ys := by
  have hmain : ∀ zs : List Sample, pushMany cap [] zs = zs.drop (zs.length - cap) := by
    intro zs
    have hz := pushMany_drop cap hcap [] zs (by simp)
    simpa using hz
  refine ⟨?_, hmain xs, ?_⟩
  · rw [hmain xs, List.length_drop]
    omega
  · rw [hmain (x :: ys)]
    have h1 : (x :: ys).length - cap = 1 := by
      rw [List.length_cons]; omega
    rw [h1, List.drop_one, List.tail_cons]

/-- Witness for `sliding_window_push_law` at capacity 3. -/
theorem sliding_window_push_law_witness :
    1 ≤ 3 ∧ List.length ([4, 5, 6] : List Sample) = 3 ∧
    ((pushMany 3 [] ([1, 2, 3, 4, 5] : List Sample)).length =
        min (List.length ([1, 2, 3, 4, 5] : List Sample)) 3 ∧
      pushMany 3 [] ([1, 2, 3, 4, 5] : List Sample) =
        ([1, 2, 3, 4, 5] : List Sample).drop
          (List.length ([1, 2, 3, 4, 5] : List Sample) - 3) ∧
      pushMany 3 [] ((9 : Sample) :: [4, 5, 6]) = [4, 5, 6]) :=
  ⟨by decide, by decide,
    sliding_window_push_law 3 (by decide) [1, 2, 3, 4, 5] 9 [4, 5, 6] (by decide)⟩

/-- Counterexample to claim C3 as stated: when the backend reports no
default device of the requested kind, `build_audio_stream` does not return
an error result to the caller — the `.expect(..)` call aborts the process. -/
theorem open_no_device_panics :
    build_audio_stream hostNoInput AudioSource.Microphone =
      BuildOutcome.panicked "No input device available" ∧
    build_audio_stream hostNoOutput AudioSource.SystemOutput =
      BuildOutcome.panicked "No output device available" ∧
    (build_audio_stream hostNoInput AudioSource.Microphone).isPanic = true :=
  ⟨rfl, rfl, rfl⟩

/-- Claim C3 (amended): construction failures after device selection —
configuration negotiation, stream construction — are returned to the caller
as error results and never abort the process; but when no default device of
the requested kind exists, `build_audio_stream` aborts via `.expect` instead
of returning an error. -/
theorem open_failure_modes (host : Host) :
    (host.defaultInputDevice = false →
      build_audio_stream host AudioSource.Microphone =
        BuildOutcome.panicked "No input device available") ∧
    (host.defaultOutputDevice = false →
      build_audio_stream host AudioSource.SystemOutput =
        BuildOutcome.panicked "No output device available") ∧
    (host.defaultInputDevice = true → host.defaultInputConfigOk = false →
      build_audio_stream host AudioSource.Microphone =
        BuildOutcome.err BuildFailStep.configNegotiation) ∧
    (host.defaultInputDevice = true → host.defaultInputConfigOk = true →
      host.buildInputStreamOk = false →
      build_audio_stream host AudioSource.Microphone =
        BuildOutcome.err BuildFailStep.streamConstruction) ∧
    (host.defaultOutputDevice = true → host.defaultOutputConfigOk = false →
      build_audio_stream host AudioSource.SystemOutput =
        BuildOutcome.err BuildFailStep.configNegotiation) ∧
    (host.defaultOutputDevice = true → host.defaultOutputConfigOk = true →
      host.buildOutputCaptureOk = false →
      build_audio_stream host AudioSource.SystemOutput =
        BuildOutcome.err BuildFailStep.streamConstruction) ∧
    (host.defaultInputDevice = true →
      (build_audio_stream host AudioSource.Microphone).isPanic = false) ∧
    (host.defaultOutputDevice = true →
      (build_audio_stream host AudioSource.SystemOutput).isPanic = false) := by
  obtain ⟨d1, d2, c1, c2, b1, b2⟩ := host
  cases d1 <;> cases d2 <;> cases c1 <;> cases c2 <;> cases b1 <;> cases b2 <;>
    decide

/-- Witness for `open_failure_modes`: a host whose input device exists but
whose default configuration cannot be negotiated gets an error result. -/
theorem open_failure_modes_witness :
    hostBadConfig.defaultInputDevice = true ∧
    hostBadConfig.defaultInputConfigOk = false ∧
    build_audio_stream hostBadConfig AudioSource.Microphone =
      BuildOutcome.err BuildFailStep.configNegotiation :=
  ⟨rfl, rfl, (open_failure_modes hostBadConfig).2.2.1 rfl rfl⟩

/-- Claim C6: `send` never blocks and never fails observably to the calling
hardware callback: it is a total function into the channel state, and when
the receiver endpoint has been dropped the sample is silently discarded
(channel unchanged) while the producer proceeds through the rest of its
buffer normally. -/
theorem send_never_fails (c : Chan) (s : Sample) (data : List Sample) :
    callbackSend c s =
      (if c.receiverAlive then { c with queue := c.queue ++ [s] } else c) ∧
    callbackBuffer c data =
      (if c.receiverAlive then { c with queue := c.queue ++ data } else c) :=
  ⟨callbackSend_eq c s, callbackBuffer_eq c data⟩

/-- Claim C7: samples sent on a channel before any receive are yielded by
repeated `try_receive` exactly in send order — no loss, no duplication —
after which the channel reports empty. -/
theorem channel_fifo (xs : List Sample) :
    drainSeq (callbackBuffer freshChan xs) = (xs, RecvError.empty) := by
  rw [callbackBuffer_eq]
  simp [freshChan, drainSeq_spec]

/-- Claim C9: while the app retains a live sender for each channel (as
`MyApp` stores `sys_tx` and `mic_tx` for its whole lifetime), each drain
loop of `update` terminates with the `Empty` error — never `Disconnected` —
and the tick drains exactly the samples queued at its start. -/
theorem drain_exits_on_empty (a : MyApp)
    (hs : a.sys_rx.senderAlive = true) (hm : a.mic_rx.senderAlive = true) :
    drainLoop WINDOW_CAP a.sys_rx a.sys_samples =
      ({ a.sys_rx with queue := [] },
        pushMany WINDOW_CAP a.sys_samples a.sys_rx.queue, RecvError.empty) ∧
    drainLoop WINDOW_CAP a.mic_rx a.mic_samples =
      ({ a.mic_rx with queue := [] },
        pushMany WINDOW_CAP a.mic_samples a.mic_rx.queue, RecvError.empty) ∧
    MyApp.update a =
      { sys_rx := { a.sys_rx with queue := [] },
        mic_rx := { a.mic_rx with queue := [] },
        sys_samples := pushMany WINDOW_CAP a.sys_samples a.sys_rx.queue,
        mic_samples := pushMany WINDOW_CAP a.mic_samples a.mic_rx.queue } := by
  refine ⟨?_, ?_, ?_⟩ <;> simp [MyApp.update, drainLoop_spec, hs, hm]

/-- Witness for `drain_exits_on_empty` at a concrete busy state. -/
theorem drain_exits_on_empty_witness :
    appBusy.sys_rx.senderAlive = true ∧ appBusy.mic_rx.senderAlive = true ∧
    (drainLoop WINDOW_CAP appBusy.sys_rx appBusy.sys_samples =
        ({ appBusy.sys_rx with queue := [] },
          pushMany WINDOW_CAP appBusy.sys_samples appBusy.sys_rx.queue,
          RecvError.empty) ∧
      drainLoop WINDOW_CAP appBusy.mic_rx appBusy.mic_samples =
        ({ appBusy.mic_rx with queue := [] },
          pushMany WINDOW_CAP appBusy.mic_samples appBusy.mic_rx.queue,
          RecvError.empty) ∧
      MyApp.update appBusy =
        { sys_rx := { appBusy.sys_rx with queue := [] },
          mic_rx := { appBusy.mic_rx with queue := [] },
          sys_samples := pushMany WINDOW_CAP appBusy.sys_samples appBusy.sys_rx.queue,
          mic_samples := pushMany WINDOW_CAP appBusy.mic_samples appBusy.mic_rx.queue }) :=
  ⟨rfl, rfl, drain_exits_on_empty appBusy rfl rfl⟩

/-- Claim C10: the two stream buffers are independent under draining: the
microphone window and receiver left by `update` depend only on the
microphone channel and window going in (so draining the system-output
channel leaves them unchanged), and symmetrically for the system-output
side. -/
theorem streams_independent (a b : MyApp) :
    (a.mic_rx = b.mic_rx → a.mic_samples = b.mic_samples →
      (MyApp.update a).mic_samples = (MyApp.update b).mic_samples ∧
        (MyApp.update a).mic_rx = (MyApp.update b).mic_rx) ∧
    (a.sys_rx = b.sys_rx → a.sys_samples = b.sys_samples →
      (MyApp.update a).sys_samples = (MyApp.update b).sys_samples ∧
        (MyApp.update a).sys_rx = (MyApp.update b).sys_rx) := by
  constructor
  · intro h1 h2
    constructor <;> simp [MyApp.update, h1, h2]
  · intro h1 h2
    constructor <;> simp [MyApp.update, h1, h2]

/-- Witness for `streams_independent`: two states agreeing on the
microphone side but differing on the system-output side. -/
theorem streams_independent_witness :
    appBusy.mic_rx = appBusySysVariant.mic_rx ∧
    appBusy.mic_samples = appBusySysVariant.mic_samples ∧
    ((MyApp.update appBusy).mic_samples =
        (MyApp.update appBusySysVariant).mic_samples ∧
      (MyApp.update appBusy).mic_rx = (MyApp.update appBusySysVariant).mic_rx) :=
  ⟨rfl, rfl, (streams_independent appBusy appBusySysVariant).1 rfl rfl⟩

/-- Claim C5: `switch_source` is atomic with respect to failure: from a
playing binding, a failed swap leaves the whole state unchanged (same
current source, still playing); a successful swap reports the other
identity, is playing, and a sample sent on the released old channel after
the swap (one not already displayed and not also sent on the new channel)
never appears in the window, whatever ticks and new-channel sends follow. -/
theorem switch_source_atomic (cap : Nat) (host : Host) (st : SwitchCore)
    (hplay : st.bound.playing = true) :
    ((switch_source host st).2 = false → (switch_source host st).1 = st ∧
      (switch_source host st).1.current_source = st.current_source ∧
      (switch_source host st).1.bound.playing = true) ∧
    ((switch_source host st).2 = true →
      (switch_source host st).1.current_source = st.current_source.other ∧
      (switch_source host st).1.bound.playing = true ∧
      ∀ evs : List Ev, ∀ x : Sample,
        x ∉ st.window → x ∉ sentNew evs →
        x ∉ (runEv cap (switch_source host st).1 evs).window) := by
  cases hb : build_audio_stream host st.bound.source.other with
  | ok s =>
      have hs := build_ok_source host _ s hb
      constructor
      · intro hfail
        simp [switch_source, hb] at hfail
      · intro _
        have hstate : (switch_source host st).1 =
            { bound := { source := s, chan := freshChan, playing := true },
              released := some { st.bound.chan with receiverAlive := false },
              window := st.window } := by
          simp [switch_source, hb]
        refine ⟨?_, ?_, ?_⟩
        · rw [hstate]
          simp [SwitchCore.current_source, hs]
        · rw [hstate]
        · intro evs x hxw hxn hmem
          rw [hstate] at hmem
          have h3 := runEv_window_mem cap evs _ x hmem
          rcases h3 with h | h | h
          · exact hxw h
          · exact absurd h (by simp [freshChan])
          · exact hxn h
  | err e =>
      have hres : switch_source host st = (st, false) := by
        simp [switch_source, hb]
      rw [hres]
      exact ⟨fun _ => ⟨rfl, rfl, hplay⟩, fun htrue => by simp at htrue⟩
  | panicked msg =>
      have hres : switch_source host st = (st, false) := by
        simp [switch_source, hb]
      rw [hres]
      exact ⟨fun _ => ⟨rfl, rfl, hplay⟩, fun htrue => by simp at htrue⟩

/-- Witness for `switch_source_atomic`: a successful swap away from the
microphone, followed by a racing send of sample 5 on the released channel
and a tick; 5 does not appear in the window. -/
theorem switch_source_atomic_witness :
    coreMicPlaying.bound.playing = true ∧
    (switch_source hostOk coreMicPlaying).2 = true ∧
    (switch_source hostOk coreMicPlaying).1.current_source =
      coreMicPlaying.current_source.other ∧
    (5 : Sample) ∉ coreMicPlaying.window ∧
    (5 : Sample) ∉ sentNew [Ev.sendOld 5, Ev.tickEv] ∧
    (5 : Sample) ∉
      (runEv 2 (switch_source hostOk coreMicPlaying).1
        [Ev.sendOld 5, Ev.tickEv]).window := by
  have h := switch_source_atomic 2 hostOk coreMicPlaying rfl
  have h2 := h.2 rfl
  exact ⟨rfl, rfl, h2.1, by decide, by decide,
    h2.2.2 [Ev.sendOld 5, Ev.tickEv] 5 (by decide) (by decide)⟩

end Oscilloscope
